import Mathlib

/-!
Shell renderer selection (`shell/renderer.go`)

A shallow embedding of `NewRenderer`, the factory of package `shell`, together
with the library functions it calls.

Modelling decisions.

* Go strings are modelled as Lean `String`s, that is as sequences of Unicode
  code points (valid UTF-8 text).
* `runtime.GOOS` (the host platform name) and `utils.OSIsUnix` (the Unix-family
  predicate, defined outside `shell/renderer.go`) are parameters of
  `shell.NewRenderer`.
* `strings.ToLower` maps `unicode.ToLower` over the runes of the string.  The
  ASCII branch of `unicode.ToLower` is written out; its table branch
  (`unicode.CaseRanges`) is the parameter `caseTable`.
* `errors.NotFoundf(format, arg)` builds the message
  `fmt.Sprintf(format + " not found", arg)`; `%q` renders a string with
  `strconv.Quote`, whose printable-ASCII behaviour is written out and whose
  escape sequences for the other runes are the parameter `escapeRune`.
* Go's `(Renderer, error)` result is a pair of options, `none` standing for
  `nil`.
-/

/-- The ASCII branch of `unicode.ToLower` is explicit; above `MaxASCII` the rune
is looked up in the case table. -/
def unicode.ToLower (caseTable : Char → Char) (r : Char) : Char :=
  if r.toNat ≤ 0x7F then
    if 'A'.toNat ≤ r.toNat ∧ r.toNat ≤ 'Z'.toNat then
      Char.ofNat (r.toNat + ('a'.toNat - 'A'.toNat))
    else r
  else caseTable r

/-- `strings.ToLower(s)`: `strings.Map(unicode.ToLower, s)`. -/
def strings.ToLower (caseTable : Char → Char) (s : String) : String :=
  ⟨s.data.map (unicode.ToLower caseTable)⟩

/-- One rune of `strconv.Quote`: the quote character and the backslash are
backslashed, printable ASCII is copied, every other rune is rendered by
`escapeRune`. -/
def strconv.quoteRune (escapeRune : Char → List Char) (r : Char) : List Char :=
  if r = '"' ∨ r = '\\' then ['\\', r]
  else if 0x20 ≤ r.toNat ∧ r.toNat < 0x7F then [r]
  else escapeRune r

/-- `strconv.Quote(s)`: the runes of `s`, escaped, between double quotes. -/
def strconv.Quote (escapeRune : Char → List Char) (s : String) : String :=
  ⟨'"' :: (s.data.flatMap (strconv.quoteRune escapeRune) ++ ['"'])⟩

/-- The scan of `fmt.Sprintf` over a format whose only verb is one `%q` with a
string argument: text is copied, the verb is replaced by the quoted argument. -/
def fmt.sprintfAux (quoted : List Char) : List Char → List Char
  | [] => []
  | c :: rest =>
    if c = '%' ∧ rest.head? = some 'q' then quoted ++ rest.tail
    else c :: fmt.sprintfAux quoted rest

/-- `fmt.Sprintf(format, arg)` for a format with one `%q` verb. -/
def fmt.Sprintf (escapeRune : Char → List Char) (format : String) (arg : String) : String :=
  ⟨fmt.sprintfAux (strconv.Quote escapeRune arg).data format.data⟩

/-- The `notFound` error of juju/errors: an error value of kind NotFound with
its message. -/
structure errors.notFound where
  message : String
  deriving DecidableEq, Repr

/-- `errors.NotFoundf(format, arg)`: a NotFound error whose message is
`fmt.Sprintf(format + " not found", arg)`. -/
def errors.NotFoundf (escapeRune : Char → List Char) (format : String) (arg : String) :
    errors.notFound :=
  ⟨fmt.Sprintf escapeRune (format ++ " not found") arg⟩

/-- The two renderer variants `NewRenderer` can return (`&WindowsRenderer{}` and
`&UnixRenderer{}`). -/
inductive shell.Renderer where
  | WindowsRenderer
  | UnixRenderer
  deriving DecidableEq, Repr

/-- `NewRenderer(os)` on a host whose `runtime.GOOS` is `GOOS`, with
`utils.OSIsUnix` the Unix-family predicate. -/
def shell.NewRenderer (caseTable : Char → Char) (escapeRune : Char → List Char)
    (OSIsUnix : String → Bool) (GOOS : String) (os : String) :
    Option shell.Renderer × Option errors.notFound :=
  let os := if os = "" then GOOS else os
  let os := strings.ToLower caseTable os
  if os = "windows" then (some .WindowsRenderer, none)
  else if OSIsUnix os then (some .UnixRenderer, none)
  else if os = "ubuntu" then (some .UnixRenderer, none)
  else (none, some (errors.NotFoundf escapeRune "renderer for %q" os))

/-- The property of the Unicode case table that lower-casing twice relies on:
the lower-case form the table gives for a rune above ASCII is itself in lower
case. -/
def unicode.LowerFixed (caseTable : Char → Char) : Prop :=
  ∀ r : Char, 0x7F < r.toNat →
    unicode.ToLower caseTable (caseTable r) = caseTable r

/-- A case table for examples: it lower-cases `É` and leaves every other rune
unchanged. -/
def exampleCaseTable : Char → Char :=
  fun r => if r = 'É' then 'é' else r

/-- An escape function for examples: every rune outside printable ASCII is
rendered as `?`. -/
def exampleEscape : Char → List Char :=
  fun _ => ['?']

/-- A Unix-family predicate for examples: it knows `linux` and `darwin`. -/
def exampleOSIsUnix : String → Bool :=
  fun os => os = "linux" || os = "darwin"

/-! ## Lemmas on the library functions -/

theorem strings.ToLower_eq_empty_iff (caseTable : Char → Char) (s : String) :
    strings.ToLower caseTable s = "" ↔ s = "" := by
  constructor
  · intro h
    have hd : (strings.ToLower caseTable s).data = [] := by rw [h]
    simp only [strings.ToLower, List.map_eq_nil_iff] at hd
    exact String.ext hd
  · rintro rfl
    rfl

theorem unicode.ToLower_ascii_upper (caseTable : Char → Char) (r : Char)
    (h : 'A'.toNat ≤ r.toNat ∧ r.toNat ≤ 'Z'.toNat) :
    unicode.ToLower caseTable (unicode.ToLower caseTable r) = unicode.ToLower caseTable r := by
  have hr : r = Char.ofNat r.toNat := (Char.ofNat_toNat r).symm
  obtain ⟨h1, h2⟩ := h
  generalize r.toNat = n at hr h1 h2
  have h1' : 65 ≤ n := h1
  have h2' : n ≤ 90 := h2
  subst hr
  interval_cases n <;> rfl

theorem unicode.ToLower_rune_idem (caseTable : Char → Char) (hfix : unicode.LowerFixed caseTable)
    (r : Char) :
    unicode.ToLower caseTable (unicode.ToLower caseTable r) = unicode.ToLower caseTable r := by
  by_cases hascii : r.toNat ≤ 0x7F
  · by_cases hup : 'A'.toNat ≤ r.toNat ∧ r.toNat ≤ 'Z'.toNat
    · exact unicode.ToLower_ascii_upper caseTable r hup
    · have hr : unicode.ToLower caseTable r = r := by
        simp only [unicode.ToLower, hascii, hup, if_true, if_false]
      rw [hr, hr]
  · have hr : unicode.ToLower caseTable r = caseTable r := by
      simp only [unicode.ToLower, hascii, if_false]
    rw [hr]
    exact hfix r (by omega)

theorem strings.ToLower_idem (caseTable : Char → Char) (hfix : unicode.LowerFixed caseTable)
    (s : String) :
    strings.ToLower caseTable (strings.ToLower caseTable s) = strings.ToLower caseTable s := by
  apply String.ext
  simp only [strings.ToLower, List.map_map]
  apply List.map_congr_left
  intro r _
  exact unicode.ToLower_rune_idem caseTable hfix r

theorem exampleCaseTable_lowerFixed : unicode.LowerFixed exampleCaseTable := by
  intro r hr
  by_cases h : r = 'É'
  · subst h; rfl
  · have ht : exampleCaseTable r = r := by simp [exampleCaseTable, h]
    rw [ht]
    have hna : ¬ r.toNat ≤ 0x7F := by omega
    simp only [unicode.ToLower, hna, if_false, ht]

theorem fmt.Sprintf_renderer (escapeRune : Char → List Char) (arg : String) :
    fmt.Sprintf escapeRune ("renderer for %q" ++ " not found") arg
      = "renderer for " ++ strconv.Quote escapeRune arg ++ " not found" := by
  apply String.ext
  rfl

/-! ## Lemmas on `NewRenderer` -/

theorem shell.NewRenderer_empty (caseTable : Char → Char) (escapeRune : Char → List Char)
    (OSIsUnix : String → Bool) (GOOS : String) :
    shell.NewRenderer caseTable escapeRune OSIsUnix GOOS ""
      = if strings.ToLower caseTable GOOS = "windows" then (some .WindowsRenderer, none)
        else if OSIsUnix (strings.ToLower caseTable GOOS) then (some .UnixRenderer, none)
        else if strings.ToLower caseTable GOOS = "ubuntu" then (some .UnixRenderer, none)
        else (none, some (errors.NotFoundf escapeRune "renderer for %q"
          (strings.ToLower caseTable GOOS))) := by
  simp only [shell.NewRenderer, if_true]

theorem shell.NewRenderer_of_ne_empty (caseTable : Char → Char)
    (escapeRune : Char → List Char) (OSIsUnix : String → Bool) (GOOS : String) (s : String)
    (hs : s ≠ "") :
    shell.NewRenderer caseTable escapeRune OSIsUnix GOOS s
      = if strings.ToLower caseTable s = "windows" then (some .WindowsRenderer, none)
        else if OSIsUnix (strings.ToLower caseTable s) then (some .UnixRenderer, none)
        else if strings.ToLower caseTable s = "ubuntu" then (some .UnixRenderer, none)
        else (none, some (errors.NotFoundf escapeRune "renderer for %q"
          (strings.ToLower caseTable s))) := by
  simp only [shell.NewRenderer, hs, if_false]

theorem errors.NotFoundf_renderer_message (escapeRune : Char → List Char) (arg : String) :
    (errors.NotFoundf escapeRune "renderer for %q" arg).message
      = "renderer for " ++ strconv.Quote escapeRune arg ++ " not found" :=
  fmt.Sprintf_renderer escapeRune arg

/-! ## The factory's contract -/

/-- C1: an identifier whose lower-cased form is exactly "windows" gets the Windows
renderer and a nil error, on every host and whatever the Unix-family predicate
answers. -/
theorem shell.NewRenderer_windows (caseTable : Char → Char) (escapeRune : Char → List Char)
    (OSIsUnix : String → Bool) (GOOS : String) (s : String)
    (hw : strings.ToLower caseTable s = "windows") :
    shell.NewRenderer caseTable escapeRune OSIsUnix GOOS s
      = (some shell.Renderer.WindowsRenderer, none) := by
  have hs : s ≠ "" := by
    intro h
    rw [h, (strings.ToLower_eq_empty_iff caseTable "").mpr rfl] at hw
    exact absurd hw (by decide)
  rw [shell.NewRenderer_of_ne_empty _ _ _ _ _ hs, if_pos hw]

/-- C1, at "windows", "Windows" and "WINDOWS", on a Linux host and with a
Unix-family predicate that answers true for every name. -/
theorem shell.NewRenderer_windows_witness :
    shell.NewRenderer exampleCaseTable exampleEscape (fun _ => true) "linux" "windows"
        = (some shell.Renderer.WindowsRenderer, none)
    ∧ shell.NewRenderer exampleCaseTable exampleEscape (fun _ => true) "linux" "Windows"
        = (some shell.Renderer.WindowsRenderer, none)
    ∧ shell.NewRenderer exampleCaseTable exampleEscape (fun _ => true) "linux" "WINDOWS"
        = (some shell.Renderer.WindowsRenderer, none) :=
  ⟨shell.NewRenderer_windows _ _ _ _ "windows" (by decide),
   shell.NewRenderer_windows _ _ _ _ "Windows" (by decide),
   shell.NewRenderer_windows _ _ _ _ "WINDOWS" (by decide)⟩

/-- C2: a non-empty identifier whose lower-cased form is not "windows" and either
satisfies the Unix-family predicate or is "ubuntu" gets the Unix renderer and a
nil error. -/
theorem shell.NewRenderer_unix (caseTable : Char → Char) (escapeRune : Char → List Char)
    (OSIsUnix : String → Bool) (GOOS : String) (s : String)
    (hs : s ≠ "")
    (hw : strings.ToLower caseTable s ≠ "windows")
    (hu : OSIsUnix (strings.ToLower caseTable s) = true
      ∨ strings.ToLower caseTable s = "ubuntu") :
    shell.NewRenderer caseTable escapeRune OSIsUnix GOOS s
      = (some shell.Renderer.UnixRenderer, none) := by
  rw [shell.NewRenderer_of_ne_empty _ _ _ _ _ hs, if_neg hw]
  rcases hu with hu | hu
  · rw [if_pos hu]
  · by_cases h : OSIsUnix (strings.ToLower caseTable s) = true
    · rw [if_pos h]
    · rw [if_neg h, if_pos hu]

/-- C2, at "ubuntu" with a Unix-family predicate that recognises no name, and at
"Linux" with one that recognises "linux", both on a Windows host. -/
theorem shell.NewRenderer_unix_witness :
    shell.NewRenderer exampleCaseTable exampleEscape (fun _ => false) "windows" "ubuntu"
        = (some shell.Renderer.UnixRenderer, none)
    ∧ shell.NewRenderer exampleCaseTable exampleEscape exampleOSIsUnix "windows" "Linux"
        = (some shell.Renderer.UnixRenderer, none) :=
  ⟨shell.NewRenderer_unix _ _ _ _ "ubuntu" (by decide) (by decide) (Or.inr (by decide)),
   shell.NewRenderer_unix _ _ _ _ "Linux" (by decide) (by decide) (Or.inl (by decide))⟩

/-- C3: for a non-empty identifier, `NewRenderer` returns a NotFound error and a
nil renderer exactly when the lower-cased identifier is not "windows", does not
satisfy the Unix-family predicate and is not "ubuntu". -/
theorem shell.NewRenderer_fails_iff (caseTable : Char → Char)
    (escapeRune : Char → List Char) (OSIsUnix : String → Bool) (GOOS : String) (s : String)
    (hs : s ≠ "") :
    ((shell.NewRenderer caseTable escapeRune OSIsUnix GOOS s).1 = none
      ∧ ∃ e : errors.notFound,
          (shell.NewRenderer caseTable escapeRune OSIsUnix GOOS s).2 = some e)
    ↔ (strings.ToLower caseTable s ≠ "windows"
      ∧ OSIsUnix (strings.ToLower caseTable s) = false
      ∧ strings.ToLower caseTable s ≠ "ubuntu") := by
  rw [shell.NewRenderer_of_ne_empty _ _ _ _ _ hs]
  by_cases hw : strings.ToLower caseTable s = "windows"
  · simp [hw]
  · by_cases hu : OSIsUnix (strings.ToLower caseTable s) = true
    · simp [hw, hu]
    · by_cases hb : strings.ToLower caseTable s = "ubuntu"
      · simp [hw, hu, hb]
      · simp [hw, hu, hb]

/-- C3, at "plan9" and "amiga" (rejected) and at "Ubuntu" (not rejected). -/
theorem shell.NewRenderer_fails_iff_witness :
    ((shell.NewRenderer exampleCaseTable exampleEscape exampleOSIsUnix "linux" "plan9").1 = none
      ∧ ∃ e : errors.notFound,
          (shell.NewRenderer exampleCaseTable exampleEscape exampleOSIsUnix "linux" "plan9").2
            = some e)
    ∧ ((shell.NewRenderer exampleCaseTable exampleEscape exampleOSIsUnix "linux" "amiga").1 = none
      ∧ ∃ e : errors.notFound,
          (shell.NewRenderer exampleCaseTable exampleEscape exampleOSIsUnix "linux" "amiga").2
            = some e)
    ∧ ¬ ((shell.NewRenderer exampleCaseTable exampleEscape exampleOSIsUnix "linux" "Ubuntu").1
          = none
      ∧ ∃ e : errors.notFound,
          (shell.NewRenderer exampleCaseTable exampleEscape exampleOSIsUnix "linux" "Ubuntu").2
            = some e) :=
  ⟨(shell.NewRenderer_fails_iff _ _ _ _ "plan9" (by decide)).mpr
      ⟨by decide, by decide, by decide⟩,
   (shell.NewRenderer_fails_iff _ _ _ _ "amiga" (by decide)).mpr
      ⟨by decide, by decide, by decide⟩,
   fun h => absurd ((shell.NewRenderer_fails_iff exampleCaseTable exampleEscape exampleOSIsUnix
      "linux" "Ubuntu" (by decide)).mp h).2.2 (by decide)⟩

/-- C4, as stated, fails at "Plan9": the identifier is unrecognised, and the
error is the one `NotFoundf` builds for "plan9", whose message is
`renderer for "plan9" not found`; it is not the error built for "Plan9". -/
theorem shell.NewRenderer_error_original_counterexample :
    strings.ToLower exampleCaseTable "Plan9" ≠ "windows"
    ∧ exampleOSIsUnix (strings.ToLower exampleCaseTable "Plan9") = false
    ∧ strings.ToLower exampleCaseTable "Plan9" ≠ "ubuntu"
    ∧ shell.NewRenderer exampleCaseTable exampleEscape exampleOSIsUnix "linux" "Plan9"
        = (none, some ⟨"renderer for \"plan9\" not found"⟩)
    ∧ errors.NotFoundf exampleEscape "renderer for %q" "Plan9"
        = ⟨"renderer for \"Plan9\" not found"⟩
    ∧ (shell.NewRenderer exampleCaseTable exampleEscape exampleOSIsUnix "linux" "Plan9").2
        ≠ some (errors.NotFoundf exampleEscape "renderer for %q" "Plan9") := by
  refine ⟨by decide, by decide, by decide, by decide, by decide, by decide⟩

/-- C4, amended: when the name looked up (the identifier, or the host platform
name for the empty identifier) is unrecognised, `NewRenderer` returns a nil
renderer and a NotFound error that carries the lower-cased name: its message is
`renderer for `, the Go-quoted lower-cased name, ` not found`.  When the
identifier is non-empty and already in lower case, that message is the one that
quotes the identifier as supplied. -/
theorem shell.NewRenderer_error_names_lowered (caseTable : Char → Char)
    (escapeRune : Char → List Char) (OSIsUnix : String → Bool) (GOOS : String) (s : String)
    (hw : strings.ToLower caseTable (if s = "" then GOOS else s) ≠ "windows")
    (hu : OSIsUnix (strings.ToLower caseTable (if s = "" then GOOS else s)) = false)
    (hb : strings.ToLower caseTable (if s = "" then GOOS else s) ≠ "ubuntu") :
    ∃ e : errors.notFound,
      shell.NewRenderer caseTable escapeRune OSIsUnix GOOS s = (none, some e)
      ∧ e.message
          = "renderer for "
              ++ strconv.Quote escapeRune
                  (strings.ToLower caseTable (if s = "" then GOOS else s))
              ++ " not found"
      ∧ (s ≠ "" → strings.ToLower caseTable s = s →
          e.message = "renderer for " ++ strconv.Quote escapeRune s ++ " not found") := by
  have hmsg := errors.NotFoundf_renderer_message escapeRune
    (strings.ToLower caseTable (if s = "" then GOOS else s))
  refine ⟨errors.NotFoundf escapeRune "renderer for %q"
    (strings.ToLower caseTable (if s = "" then GOOS else s)), ?_, hmsg, ?_⟩
  · simp only [shell.NewRenderer, hw, hu, hb, if_false, Bool.false_eq_true]
  · intro hs hlow
    rw [hmsg, if_neg hs, hlow]

/-- C4 amended, at "Plan9" (the message is `renderer for "plan9" not found`, not
the one quoting "Plan9") and at "plan9" (the message quotes the identifier as
supplied). -/
theorem shell.NewRenderer_error_names_lowered_witness :
    (∃ e : errors.notFound,
      shell.NewRenderer exampleCaseTable exampleEscape exampleOSIsUnix "linux" "Plan9"
        = (none, some e)
      ∧ e.message = "renderer for \"plan9\" not found"
      ∧ e.message ≠ "renderer for \"Plan9\" not found")
    ∧ (∃ e : errors.notFound,
      shell.NewRenderer exampleCaseTable exampleEscape exampleOSIsUnix "linux" "plan9"
        = (none, some e)
      ∧ e.message = "renderer for \"plan9\" not found") :=
  ⟨(shell.NewRenderer_error_names_lowered exampleCaseTable exampleEscape exampleOSIsUnix
      "linux" "Plan9" (by decide) (by decide) (by decide)).imp
      (fun _ h => ⟨h.1, h.2.1, fun hne => absurd (h.2.1.symm.trans hne) (by decide)⟩),
   (shell.NewRenderer_error_names_lowered exampleCaseTable exampleEscape exampleOSIsUnix
      "linux" "plan9" (by decide) (by decide) (by decide)).imp
      (fun _ h => ⟨h.1, h.2.2 (by decide) (by decide)⟩)⟩

/-- C5: with the empty identifier `NewRenderer` returns, on a host named `h`, what
it returns there for the lower-cased `h` (given that lower-casing by the Unicode
case table is stable); when `h` is not empty this is also what it returns for
the lower-cased `h` on any other host. -/
theorem shell.NewRenderer_empty_eq_host (caseTable : Char → Char)
    (escapeRune : Char → List Char) (OSIsUnix : String → Bool) (h : String)
    (hfix : unicode.LowerFixed caseTable) :
    shell.NewRenderer caseTable escapeRune OSIsUnix h ""
        = shell.NewRenderer caseTable escapeRune OSIsUnix h (strings.ToLower caseTable h)
    ∧ (h ≠ "" → ∀ h2 : String,
        shell.NewRenderer caseTable escapeRune OSIsUnix h ""
          = shell.NewRenderer caseTable escapeRune OSIsUnix h2
              (strings.ToLower caseTable h)) := by
  have hne : strings.ToLower caseTable h ≠ "" → ∀ h2 : String,
      shell.NewRenderer caseTable escapeRune OSIsUnix h ""
        = shell.NewRenderer caseTable escapeRune OSIsUnix h2
            (strings.ToLower caseTable h) := by
    intro he h2
    rw [shell.NewRenderer_empty, shell.NewRenderer_of_ne_empty _ _ _ _ _ he,
      strings.ToLower_idem caseTable hfix]
  constructor
  · by_cases he : strings.ToLower caseTable h = ""
    · rw [he]
    · exact hne he h
  · intro hh
    exact hne (fun he => hh ((strings.ToLower_eq_empty_iff caseTable h).mp he))

/-- C5, on hosts named "windows", "Linux" and "plan9"; for "Linux" also against
the lower-cased name evaluated on a host named "windows". -/
theorem shell.NewRenderer_empty_eq_host_witness :
    shell.NewRenderer exampleCaseTable exampleEscape exampleOSIsUnix "windows" ""
        = shell.NewRenderer exampleCaseTable exampleEscape exampleOSIsUnix "windows" "windows"
    ∧ shell.NewRenderer exampleCaseTable exampleEscape exampleOSIsUnix "Linux" ""
        = shell.NewRenderer exampleCaseTable exampleEscape exampleOSIsUnix "Linux" "linux"
    ∧ shell.NewRenderer exampleCaseTable exampleEscape exampleOSIsUnix "plan9" ""
        = shell.NewRenderer exampleCaseTable exampleEscape exampleOSIsUnix "plan9" "plan9"
    ∧ shell.NewRenderer exampleCaseTable exampleEscape exampleOSIsUnix "Linux" ""
        = shell.NewRenderer exampleCaseTable exampleEscape exampleOSIsUnix "windows" "linux" :=
  ⟨(shell.NewRenderer_empty_eq_host _ _ _ "windows" exampleCaseTable_lowerFixed).1,
   (shell.NewRenderer_empty_eq_host _ _ _ "Linux" exampleCaseTable_lowerFixed).1,
   (shell.NewRenderer_empty_eq_host _ _ _ "plan9" exampleCaseTable_lowerFixed).1,
   (shell.NewRenderer_empty_eq_host _ _ _ "Linux" exampleCaseTable_lowerFixed).2
      (by decide) "windows"⟩

/-- C6: two identifiers with the same lower-cased form get the same result (same
variant or same failure), and, lower-casing by the Unicode case table being
stable, an identifier gets the same result as its lower-cased form. -/
theorem shell.NewRenderer_case_insensitive (caseTable : Char → Char)
    (escapeRune : Char → List Char) (OSIsUnix : String → Bool) (GOOS : String)
    (s t : String) :
    (strings.ToLower caseTable s = strings.ToLower caseTable t →
      shell.NewRenderer caseTable escapeRune OSIsUnix GOOS s
        = shell.NewRenderer caseTable escapeRune OSIsUnix GOOS t)
    ∧ (unicode.LowerFixed caseTable →
      shell.NewRenderer caseTable escapeRune OSIsUnix GOOS s
        = shell.NewRenderer caseTable escapeRune OSIsUnix GOOS
            (strings.ToLower caseTable s)) := by
  have key : ∀ a b : String, strings.ToLower caseTable a = strings.ToLower caseTable b →
      shell.NewRenderer caseTable escapeRune OSIsUnix GOOS a
        = shell.NewRenderer caseTable escapeRune OSIsUnix GOOS b := by
    intro a b hab
    by_cases ha : a = ""
    · have hb : b = "" := by
        apply (strings.ToLower_eq_empty_iff caseTable b).mp
        rw [← hab]
        exact (strings.ToLower_eq_empty_iff caseTable a).mpr ha
      rw [ha, hb]
    · have hb : b ≠ "" := by
        intro hb
        apply ha
        apply (strings.ToLower_eq_empty_iff caseTable a).mp
        rw [hab]
        exact (strings.ToLower_eq_empty_iff caseTable b).mpr hb
      rw [shell.NewRenderer_of_ne_empty _ _ _ _ _ ha,
        shell.NewRenderer_of_ne_empty _ _ _ _ _ hb, hab]
  refine ⟨key s t, ?_⟩
  intro hfix
  exact key s _ (strings.ToLower_idem caseTable hfix s).symm

/-- C6, at "WINDOWS" and "Windows", at "Plan9" and "plAN9", and at "UBUNTU" and
its lower-cased form. -/
theorem shell.NewRenderer_case_insensitive_witness :
    shell.NewRenderer exampleCaseTable exampleEscape exampleOSIsUnix "linux" "WINDOWS"
        = shell.NewRenderer exampleCaseTable exampleEscape exampleOSIsUnix "linux" "Windows"
    ∧ shell.NewRenderer exampleCaseTable exampleEscape exampleOSIsUnix "linux" "Plan9"
        = shell.NewRenderer exampleCaseTable exampleEscape exampleOSIsUnix "linux" "plAN9"
    ∧ shell.NewRenderer exampleCaseTable exampleEscape exampleOSIsUnix "linux" "UBUNTU"
        = shell.NewRenderer exampleCaseTable exampleEscape exampleOSIsUnix "linux" "ubuntu" :=
  ⟨(shell.NewRenderer_case_insensitive _ _ _ _ "WINDOWS" "Windows").1 (by decide),
   (shell.NewRenderer_case_insensitive _ _ _ _ "Plan9" "plAN9").1 (by decide),
   (shell.NewRenderer_case_insensitive _ _ _ _ "UBUNTU" "").2 exampleCaseTable_lowerFixed⟩

/-- C8: for a non-empty identifier the result of `NewRenderer` is the same on any
two hosts. -/
theorem shell.NewRenderer_host_independent (caseTable : Char → Char)
    (escapeRune : Char → List Char) (OSIsUnix : String → Bool) (h1 h2 : String) (s : String)
    (hs : s ≠ "") :
    shell.NewRenderer caseTable escapeRune OSIsUnix h1 s
      = shell.NewRenderer caseTable escapeRune OSIsUnix h2 s := by
  rw [shell.NewRenderer_of_ne_empty _ _ _ _ _ hs, shell.NewRenderer_of_ne_empty _ _ _ _ _ hs]

/-- C8, at "ubuntu" and at "plan9" on hosts named "windows" and "linux"; with the
empty identifier the two hosts do get different results. -/
theorem shell.NewRenderer_host_independent_witness :
    shell.NewRenderer exampleCaseTable exampleEscape exampleOSIsUnix "windows" "ubuntu"
        = shell.NewRenderer exampleCaseTable exampleEscape exampleOSIsUnix "linux" "ubuntu"
    ∧ shell.NewRenderer exampleCaseTable exampleEscape exampleOSIsUnix "windows" "plan9"
        = shell.NewRenderer exampleCaseTable exampleEscape exampleOSIsUnix "linux" "plan9"
    ∧ shell.NewRenderer exampleCaseTable exampleEscape exampleOSIsUnix "windows" ""
        ≠ shell.NewRenderer exampleCaseTable exampleEscape exampleOSIsUnix "linux" "" :=
  ⟨shell.NewRenderer_host_independent _ _ _ "windows" "linux" "ubuntu" (by decide),
   shell.NewRenderer_host_independent _ _ _ "windows" "linux" "plan9" (by decide),
   by decide⟩

/-- C9: `NewRenderer` returns exactly one of a renderer and an error: the
renderer is non-nil if and only if the error is nil. -/
theorem shell.NewRenderer_renderer_xor_error (caseTable : Char → Char)
    (escapeRune : Char → List Char) (OSIsUnix : String → Bool) (GOOS : String) (s : String) :
    (shell.NewRenderer caseTable escapeRune OSIsUnix GOOS s).1 ≠ none
      ↔ (shell.NewRenderer caseTable escapeRune OSIsUnix GOOS s).2 = none := by
  simp only [shell.NewRenderer]
  split_ifs <;> simp

/-- C10: with the empty identifier on a host whose lower-cased name `h` is
unrecognised, `NewRenderer` returns a nil renderer and a NotFound error whose
message is `renderer for `, the Go-quoted lower-cased `h`, ` not found`. -/
theorem shell.NewRenderer_empty_error_message (caseTable : Char → Char)
    (escapeRune : Char → List Char) (OSIsUnix : String → Bool) (h : String)
    (hw : strings.ToLower caseTable h ≠ "windows")
    (hu : OSIsUnix (strings.ToLower caseTable h) = false)
    (hb : strings.ToLower caseTable h ≠ "ubuntu") :
    ∃ e : errors.notFound,
      shell.NewRenderer caseTable escapeRune OSIsUnix h "" = (none, some e)
      ∧ e.message
          = "renderer for " ++ strconv.Quote escapeRune (strings.ToLower caseTable h)
              ++ " not found" := by
  refine ⟨errors.NotFoundf escapeRune "renderer for %q" (strings.ToLower caseTable h), ?_,
    errors.NotFoundf_renderer_message escapeRune _⟩
  rw [shell.NewRenderer_empty, if_neg hw, hu, if_neg Bool.false_ne_true, if_neg hb]

/-- C10, on a host named "Plan9": the message is `renderer for "plan9" not found`. -/
theorem shell.NewRenderer_empty_error_message_witness :
    ∃ e : errors.notFound,
      shell.NewRenderer exampleCaseTable exampleEscape exampleOSIsUnix "Plan9" ""
        = (none, some e)
      ∧ e.message = "renderer for \"plan9\" not found" :=
  shell.NewRenderer_empty_error_message exampleCaseTable exampleEscape exampleOSIsUnix "Plan9"
    (by decide) (by decide) (by decide)
